import Mathlib

/-!
Shallow embedding of the lead-capture / identity-resolution subsystem of the
Sathyabama-ChatBot repository (file src/improved_user_tools.py).

The SQLite users table (columns reg_no, phone, email each declared UNIQUE,
id an AUTOINCREMENT primary key) is modeled as a list of rows plus a fresh-id
counter; an INSERT or UPDATE that would violate a UNIQUE constraint returns
an error value, mirroring the sqlite3.IntegrityError raised by the library.
SQLite treats NULL as never conflicting with anything, while the empty string
is an ordinary value that does conflict with itself; the model keeps that
distinction by using Option String fields where none is NULL.

Python truthiness (used by extract_identifiers, update_existing_user and the
guards of smart_capture_user_details) treats both None and the empty string
as absent; truthyVal models that.

Timestamps are a Nat drawn from the ambient World; the claims never inspect
their values.
-/

/-- The three identifier columns of the users table. -/
inductive IdField
  | reg_no
  | phone
  | email
  deriving DecidableEq

/-- The input field bag of smart_capture_user_details: optional string
values for name, reg_no, phone, email and context. -/
structure Bag where
  name : Option String
  reg_no : Option String
  phone : Option String
  email : Option String
  context : Option String
  deriving DecidableEq

/-- One row of the users table, as created by setup_database:
id INTEGER PRIMARY KEY AUTOINCREMENT, name, reg_no, phone, email TEXT
(the last three UNIQUE), first and last interaction timestamps,
interaction_count defaulting to 1, is_lead defaulting to 1. -/
structure UserRow where
  id : Nat
  name : Option String
  reg_no : Option String
  phone : Option String
  email : Option String
  first_interaction : Nat
  last_interaction : Nat
  interaction_count : Nat
  is_lead : Bool
  deriving DecidableEq

/-- One row of the interactions table: user_id, context, timestamp. -/
structure InteractionRow where
  user_id : Nat
  context : String
  timestamp : Nat
  deriving DecidableEq

/-- The SQLite database at data/users.db: the users table, the
AUTOINCREMENT counter for the next user id, and the interactions table. -/
structure DB where
  users : List UserRow
  nextId : Nat
  interactions : List InteractionRow
  deriving DecidableEq

/-- A freshly initialized database (setup_database on a new file):
both tables empty, AUTOINCREMENT ids starting at 1. -/
def emptyDB : DB := { users := [], nextId := 1, interactions := [] }

/-- The world a capture call runs in: the primary SQLite store, the CSV
fallback log (data/user_details.csv, a list of timestamped bags), two
failure flags modelling an unavailable store or an unwritable CSV file,
and the current time. -/
structure World where
  db : DB
  csv : List (Nat × Bag)
  dbFails : Bool
  csvFails : Bool
  now : Nat
  deriving DecidableEq

/-- Python truthiness on an optional string: None and the empty string are
falsy; a non-empty string is truthy and yields its value. -/
def truthyVal : Option String → Option String
  | some v => if v = "" then none else some v
  | none => none

/-- Whether an optional string field is truthy in the Python sense. -/
def truthy (o : Option String) : Bool := (truthyVal o).isSome

/-- Projection of a user row onto one identifier column. -/
def getIdField (u : UserRow) : IdField → Option String
  | .reg_no => u.reg_no
  | .phone => u.phone
  | .email => u.email

/-- Projection of a bag onto one identifier field. -/
def bagId (bag : Bag) : IdField → Option String
  | .reg_no => bag.reg_no
  | .phone => bag.phone
  | .email => bag.email

/-- The fixed order in which identifier fields are considered:
reg_no, then phone, then email (the textual order of
UserManager.extract_identifiers). -/
def idFields : List IdField := [.reg_no, .phone, .email]

/-- UserManager.extract_identifiers: the (field, value) pairs of the bag
whose value is truthy, in the fixed order reg_no, phone, email. -/
def extract_identifiers (bag : Bag) : List (IdField × String) :=
  idFields.filterMap fun f => (truthyVal (bagId bag f)).map fun v => (f, v)

/-- UserManager.find_existing_user: walk the identifier list in order; for
each pair run SELECT id FROM users WHERE field = value and return the id of
the first row found; fall through to the next identifier when the query is
empty. SQL equality never matches a NULL column. -/
def find_existing_user (db : DB) : List (IdField × String) → Option Nat
  | [] => none
  | (f, v) :: rest =>
    match db.users.find? (fun u => getIdField u f == some v) with
    | some u => some u.id
    | none => find_existing_user db rest

/-- UserManager.is_new_user: the bag is new when no identifier matches. -/
def is_new_user (db : DB) (bag : Bag) : Bool :=
  (find_existing_user db (extract_identifiers bag)).isNone

/-- Whether the INSERT of create_new_user would violate one of the UNIQUE
constraints: some identifier column of the new row is non-NULL and an
existing row holds the same value in that column. The raw bag values are
inserted, so an empty string is a real value here, not NULL. -/
def insertConflict (db : DB) (bag : Bag) : Bool :=
  idFields.any fun f =>
    match bagId bag f with
    | some v => db.users.any fun u => getIdField u f == some v
    | none => false

/-- UserManager.create_new_user: INSERT the raw bag fields with is_lead 1;
on a UNIQUE violation sqlite3 raises (error here) and nothing is committed;
otherwise the new row gets the AUTOINCREMENT id and the defaults
interaction_count 1 and both timestamps now, and that id is returned. -/
def create_new_user (db : DB) (bag : Bag) (now : Nat) : Except Unit (DB × Nat) :=
  if insertConflict db bag then .error ()
  else
    let row : UserRow :=
      { id := db.nextId, name := bag.name, reg_no := bag.reg_no,
        phone := bag.phone, email := bag.email,
        first_interaction := now, last_interaction := now,
        interaction_count := 1, is_lead := true }
    .ok ({ db with users := db.users ++ [row], nextId := db.nextId + 1 }, db.nextId)

/-- Whether the UPDATE of update_existing_user would violate a UNIQUE
constraint: some truthy bag field carries a value already held, in the same
column, by a row other than the one being updated. -/
def updConflict (db : DB) (uid : Nat) (bag : Bag) : Bool :=
  idFields.any fun f =>
    match truthyVal (bagId bag f) with
    | some v => db.users.any fun u => u.id != uid && getIdField u f == some v
    | none => false

/-- The SET clause of update_existing_user applied to one row: every truthy
bag field among name, reg_no, phone, email overwrites the stored value,
last_interaction is set to now and interaction_count is incremented (the
counter and timestamp are bumped even when no field is truthy). -/
def applyUpd (bag : Bag) (now : Nat) (u : UserRow) : UserRow :=
  { u with
    name := if truthy bag.name then bag.name else u.name,
    reg_no := if truthy bag.reg_no then bag.reg_no else u.reg_no,
    phone := if truthy bag.phone then bag.phone else u.phone,
    email := if truthy bag.email then bag.email else u.email,
    last_interaction := now,
    interaction_count := u.interaction_count + 1 }

/-- UserManager.update_existing_user: UPDATE ... WHERE id = uid. On a
UNIQUE violation sqlite3 raises and nothing is committed; otherwise the
matching row is rewritten by the SET clause. -/
def update_existing_user (db : DB) (uid : Nat) (bag : Bag) (now : Nat) :
    Except Unit DB :=
  if updConflict db uid bag then .error ()
  else .ok { db with
    users := db.users.map fun u => if u.id = uid then applyUpd bag now u else u }

/-- UserManager.log_interaction: append a row to the interactions table. -/
def log_interaction (db : DB) (uid : Nat) (ctx : String) (now : Nat) : DB :=
  { db with interactions := db.interactions ++ [⟨uid, ctx, now⟩] }

/-- The context string stored with an interaction: the supplied context, or
the default used by smart_capture_user_details when none was given. -/
def ctxOf (bag : Bag) : String :=
  (bag.context).getD "User provided personal information"

/-- The characters kept by re.sub stripping every non-digit from a phone
string (ASCII digits). -/
def stripNonDigits (s : String) : List Char := s.data.filter Char.isDigit

/-- The regex [6-9] followed by nine digits, anchored at both ends, applied
to a character list. -/
def phoneCore : List Char → Bool
  | c :: rest =>
    (c = '6' || c = '7' || c = '8' || c = '9') &&
      rest.length == 9 && rest.all Char.isDigit
  | [] => false

/-- validate_phone: a falsy value (None or the empty string) passes because
the field is optional; otherwise all non-digit characters are stripped and
the remainder must match the regex of phoneCore. The stripped list holds
only digits, so the trailing-newline allowance of a Python dollar anchor
cannot fire and is omitted. -/
def validate_phone : Option String → Bool
  | none => true
  | some s => if s = "" then true else phoneCore (stripNonDigits s)

/-- Character class of the local part of the email regex:
alphanumerics and underscore, dot, plus, minus. -/
def localChar (c : Char) : Bool :=
  c.isAlphanum || c = '_' || c = '.' || c = '+' || c = '-'

/-- Character class of the first domain segment: alphanumerics and minus. -/
def domChar (c : Char) : Bool := c.isAlphanum || c = '-'

/-- Character class of the rest of the domain: alphanumerics, minus, dot. -/
def dom2Char (c : Char) : Bool := c.isAlphanum || c = '-' || c = '.'

/-- The email regex on a character list: one or more localChar, an at sign,
one or more domChar, a dot, then one or more dom2Char, anchored at both
ends. Neither the at sign nor the dot belongs to the class scanned just
before it, so the greedy scans below are exactly the regex semantics. -/
def emailCore (l : List Char) : Bool :=
  let lp := l.takeWhile localChar
  let r1 := l.dropWhile localChar
  if lp.isEmpty then false
  else
    match r1 with
    | '@' :: r2 =>
      let d1 := r2.takeWhile domChar
      let r3 := r2.dropWhile domChar
      if d1.isEmpty then false
      else
        match r3 with
        | '.' :: r4 => !r4.isEmpty && r4.all dom2Char
        | _ => false
    | _ => false

/-- A Python re.match with a dollar anchor also accepts a string whose core
match ends just before one final trailing newline. -/
def reMatchEnd (core : List Char → Bool) (s : String) : Bool :=
  core s.data ||
    (match s.data.getLast? with
     | some c => decide (c = '\n') && core s.data.dropLast
     | none => false)

/-- validate_email: falsy values pass; otherwise the string must match the
email regex. -/
def validate_email : Option String → Bool
  | none => true
  | some s => if s = "" then true else reMatchEnd emailCore s

/-- The reg_no regex, case insensitive: five to fifteen alphanumerics. -/
def regCore (l : List Char) : Bool :=
  decide (5 ≤ l.length) && decide (l.length ≤ 15) && l.all Char.isAlphanum

/-- validate_reg_no: falsy values pass; otherwise five to fifteen
alphanumeric characters. -/
def validate_reg_no : Option String → Bool
  | none => true
  | some s => if s = "" then true else reMatchEnd regCore s

/-- The validation error list smart_capture_user_details builds: for each
truthy field that fails its validator, the corresponding message, in the
textual order phone, email, reg_no. -/
def validationErrors (bag : Bag) : List String :=
  (if truthy bag.phone && !validate_phone bag.phone then
    ["Invalid phone number format (should be 10 digits starting with 6-9)"] else []) ++
  (if truthy bag.email && !validate_email bag.email then
    ["Invalid email format"] else []) ++
  (if truthy bag.reg_no && !validate_reg_no bag.reg_no then
    ["Invalid registration number format"] else [])

/-- Whether the bag carries meaningful data: one of name, reg_no, phone,
email is truthy. -/
def meaningful (bag : Bag) : Bool :=
  truthy bag.name || truthy bag.reg_no || truthy bag.phone || truthy bag.email

/-- The distinct return strings of smart_capture_user_details, as result
kinds: a validation rejection carrying the error list, the plain
acknowledgment for a bag with no meaningful field, the new-lead message,
the returning-user message, and the message of the CSV fallback path taken
by the exception handler. -/
inductive Msg
  | rejected (reasons : List String)
  | acknowledged
  | recordedNew
  | recordedExisting
  | fallbackRecorded
  deriving DecidableEq

/-- Whether a result kind reports a newly created identity. -/
def isNewResult : Msg → Bool
  | .recordedNew => true
  | _ => false

/-- save_to_csv: append the timestamped bag to data/user_details.csv; when
the CSV file cannot be written the exception propagates to the caller. -/
def save_to_csv (bag : Bag) (w : World) : Except Unit World :=
  if w.csvFails then .error ()
  else .ok { w with csv := w.csv ++ [(w.now, bag)] }

/-- The try block of smart_capture_user_details. Every sqlite3 call raises
when the store is unavailable, so a set dbFails flag aborts at the first
database operation (UserManager construction). On the new-user path the
insert, the interaction log and a CSV append run in order; a UNIQUE
violation of the insert, or a CSV failure, raises out of the block with the
work committed so far. On the existing-user path the identifiers are
re-extracted, the matching user re-resolved, updated and logged; no CSV
append happens. The result pairs the world as committed with the returned
message, or none when an exception escaped the block. -/
def tryBody (bag : Bag) (w : World) : World × Option Msg :=
  if w.dbFails then (w, none)
  else if is_new_user w.db bag then
    match create_new_user w.db bag w.now with
    | .error _ => (w, none)
    | .ok (db1, uid) =>
      let db2 := log_interaction db1 uid (ctxOf bag) w.now
      let w1 := { w with db := db2 }
      match save_to_csv bag w1 with
      | .error _ => (w1, none)
      | .ok w2 => (w2, some .recordedNew)
  else
    match find_existing_user w.db (extract_identifiers bag) with
    | none => (w, none)
    | some uid =>
      match update_existing_user w.db uid bag w.now with
      | .error _ => (w, none)
      | .ok db1 =>
        ({ w with db := log_interaction db1 uid (ctxOf bag) w.now },
          some .recordedExisting)

/-- smart_capture_user_details: validate the truthy fields and reject the
bag on any failure; acknowledge a bag with no meaningful field without
touching storage; otherwise run the try block, and on an exception fall
back to a CSV append and the generic recorded message. Only a failure of
that final CSV append escapes as a raw exception (error here). -/
def smart_capture (bag : Bag) (w : World) : Except Unit (World × Msg) :=
  let vs := validationErrors bag
  if !vs.isEmpty then .ok (w, .rejected vs)
  else if !meaningful bag then .ok (w, .acknowledged)
  else
    match tryBody bag w with
    | (w1, some m) => .ok (w1, m)
    | (w1, none) =>
      match save_to_csv bag w1 with
      | .ok w2 => .ok (w2, .fallbackRecorded)
      | .error _ => .error ()

/-- Two rows never share a non-NULL value in the same identifier column. -/
def rowsDistinct (a b : UserRow) : Prop :=
  ∀ f : IdField, ∀ v : String, getIdField a f = some v → getIdField b f ≠ some v

/-- The uniqueness invariant of the users table: pairwise, no shared
non-NULL identifier value. -/
def uniqIdent (db : DB) : Prop := db.users.Pairwise rowsDistinct

/-- The primary-key discipline of the table: row ids are pairwise distinct
and all below the AUTOINCREMENT counter. -/
def idsOk (db : DB) : Prop :=
  (db.users.map (fun u => u.id)).Nodup ∧ ∀ u ∈ db.users, u.id < db.nextId

/-- The full store invariant: identifier uniqueness plus the primary-key
discipline. -/
def StoreInv (db : DB) : Prop := uniqIdent db ∧ idsOk db

/-- Projection of a user row onto its id and its four mutable identity
fields; the idempotence property compares states through it. -/
def proj (u : UserRow) : Nat × Option String × Option String × Option String × Option String :=
  (u.id, u.name, u.reg_no, u.phone, u.email)

/-- Modelled from the spec: a single-field point lookup, the id of the
first stored Identity whose given column equals the supplied truthy
value. -/
def lookupBy (db : DB) (f : IdField) (o : Option String) : Option Nat :=
  match truthyVal o with
  | some v => (db.users.find? fun u => getIdField u f == some v).map fun u => u.id
  | none => none

/-- Modelled from the spec: check each identifier field, reg_no then phone
then email, against the store and return the first Identity found whose
corresponding field equals the supplied value. -/
def resolveSpec (db : DB) (bag : Bag) : Option Nat :=
  match lookupBy db .reg_no bag.reg_no with
  | some i => some i
  | none =>
    match lookupBy db .phone bag.phone with
    | some i => some i
    | none => lookupBy db .email bag.email

/-- A fresh world: empty database, empty CSV log, no failures. -/
def capW0 : World :=
  { db := emptyDB, csv := [], dbFails := false, csvFails := false, now := 0 }

/-- A bag carrying a name and an explicitly empty phone string. -/
def bagNameA : Bag :=
  { name := some "A", reg_no := none, phone := some "", email := none, context := none }

/-- A second distinct bag, also with an empty phone string. -/
def bagNameB : Bag :=
  { name := some "B", reg_no := none, phone := some "", email := none, context := none }

/-- The bag of bagNameA with the phone absent instead of empty. -/
def bagNameA0 : Bag :=
  { name := some "A", reg_no := none, phone := none, email := none, context := none }

/-- The bag of bagNameB with the phone absent instead of empty. -/
def bagNameB0 : Bag :=
  { name := some "B", reg_no := none, phone := none, email := none, context := none }

/-- A bag whose only field is a five-digit phone value. -/
def bagPhone5 : Bag :=
  { name := none, reg_no := none, phone := some "12345", email := none, context := none }

/-- A bag with every field absent. -/
def bagEmpty : Bag :=
  { name := none, reg_no := none, phone := none, email := none, context := none }

/-- A bag whose every supplied field is the empty string. -/
def bagAllEmpty : Bag :=
  { name := some "", reg_no := some "", phone := some "", email := some "",
    context := none }

/-- A valid name-and-email bag. -/
def bagAsha : Bag :=
  { name := some "Asha", reg_no := none, phone := none, email := some "asha@x.com",
    context := none }

/-- A world in which both the primary store and the CSV log fail. -/
def wBothFail : World :=
  { db := emptyDB, csv := [], dbFails := true, csvFails := true, now := 0 }

/-- The default interaction context recorded when none is supplied. -/
def defCtx : String := "User provided personal information"

/-- The world produced by capturing bagNameA in capW0: one user row whose
phone column holds the empty string. -/
def wAfterA : World :=
  { db := { users := [⟨1, some "A", none, some "", none, 0, 0, 1, true⟩],
            nextId := 2, interactions := [⟨1, defCtx, 0⟩] },
    csv := [(0, bagNameA)], dbFails := false, csvFails := false, now := 0 }

/-- The world produced by capturing bagNameA0 in capW0: one user row whose
phone column is NULL. -/
def wAfterA0 : World :=
  { db := { users := [⟨1, some "A", none, none, none, 0, 0, 1, true⟩],
            nextId := 2, interactions := [⟨1, defCtx, 0⟩] },
    csv := [(0, bagNameA0)], dbFails := false, csvFails := false, now := 0 }

/-- The world produced by capturing bagNameB0 in wAfterA0: a second user
row is created normally. -/
def wAfterB0 : World :=
  { db := { users := [⟨1, some "A", none, none, none, 0, 0, 1, true⟩,
                      ⟨2, some "B", none, none, none, 0, 0, 1, true⟩],
            nextId := 3, interactions := [⟨1, defCtx, 0⟩, ⟨2, defCtx, 0⟩] },
    csv := [(0, bagNameA0), (0, bagNameB0)], dbFails := false, csvFails := false,
    now := 0 }

/-- A bag carrying only a registration number. -/
def bagReg : Bag :=
  { name := none, reg_no := some "CSE12345", phone := none, email := none,
    context := none }

/-- A world whose store already holds the identity with that registration
number, interaction count 1. -/
def wReg1 : World :=
  { db := { users := [⟨1, none, some "CSE12345", none, none, 0, 0, 1, true⟩],
            nextId := 2, interactions := [] },
    csv := [], dbFails := false, csvFails := false, now := 0 }

/-- The world after one capture of bagReg in wReg1: same identity fields,
interaction count 2, one interaction row appended. -/
def wReg2 : World :=
  { db := { users := [⟨1, none, some "CSE12345", none, none, 0, 0, 2, true⟩],
            nextId := 2, interactions := [⟨1, defCtx, 0⟩] },
    csv := [], dbFails := false, csvFails := false, now := 0 }

/-- A store holding identity 1 with a registration number and identity 2
with a phone number. -/
def dbTwo : DB :=
  { users := [⟨1, none, some "CSE11111", none, none, 0, 0, 1, true⟩,
              ⟨2, none, none, some "9876543210", none, 0, 0, 1, true⟩],
    nextId := 3, interactions := [] }

/-- A bag whose reg_no matches identity 1 while its phone matches
identity 2. -/
def bagTie : Bag :=
  { name := none, reg_no := some "CSE11111", phone := some "9876543210",
    email := none, context := none }

/-! Helper lemmas. -/

lemma truthyVal_some {o : Option String} {v : String} (h : truthyVal o = some v) :
    o = some v ∧ v ≠ "" := by
  cases o with
  | none => simp [truthyVal] at h
  | some s =>
    by_cases hs : s = ""
    · simp [truthyVal, hs] at h
    · simp [truthyVal, hs] at h
      subst h
      exact ⟨rfl, hs⟩

lemma truthy_eq_true {o : Option String} (h : truthy o = true) :
    ∃ v, truthyVal o = some v := by
  cases hv : truthyVal o with
  | none => rw [truthy, hv] at h; simp at h
  | some v => exact ⟨v, rfl⟩

lemma truthyVal_of_truthy {o : Option String} (h : truthy o = true) :
    truthyVal o = o := by
  obtain ⟨v, hv⟩ := truthy_eq_true h
  rw [hv, (truthyVal_some hv).1]

lemma truthy_false {o : Option String} (h : truthy o = false) :
    truthyVal o = none := by
  cases hv : truthyVal o with
  | none => rfl
  | some v => rw [truthy, hv] at h; simp at h

/-! C7: an all-absent bag is acknowledged without touching storage. -/

/-- C7: for every bag in which all of name, reg_no, phone and email are
absent (not truthy), the capture operation returns the plain acknowledgment
and leaves the world, hence both stores, completely unchanged; the
acknowledgment is not a new-identity result. -/
theorem empty_bag_acknowledged (w : World) (bag : Bag)
    (hn : truthy bag.name = false) (hr : truthy bag.reg_no = false)
    (hp : truthy bag.phone = false) (he : truthy bag.email = false) :
    smart_capture bag w = Except.ok (w, Msg.acknowledged) ∧
      isNewResult Msg.acknowledged = false := by
  refine ⟨?_, rfl⟩
  simp [smart_capture, validationErrors, meaningful, hn, hr, hp, he]

/-- Witness for C7: the all-absent bag in the fresh world. -/
theorem empty_bag_acknowledged_witness :
    smart_capture bagEmpty capW0 = Except.ok (capW0, Msg.acknowledged) :=
  (empty_bag_acknowledged capW0 bagEmpty rfl rfl rfl rfl).1

/-! C6: a failed format validation rejects the whole bag and persists
nothing. -/

/-- C6: when any supplied field fails its format validation, the capture
operation returns the rejection carrying the list of failure messages and
the world is returned unchanged, so neither store nor the fallback log is
written; a truthy phone that fails its validator contributes the phone
format message to that list. -/
theorem validation_rejection_no_persist (w : World) (bag : Bag)
    (h : validationErrors bag ≠ []) :
    smart_capture bag w = Except.ok (w, Msg.rejected (validationErrors bag)) ∧
      (truthy bag.phone = true → validate_phone bag.phone = false →
        "Invalid phone number format (should be 10 digits starting with 6-9)" ∈
          validationErrors bag) := by
  constructor
  · have hne : (validationErrors bag).isEmpty = false := by
      cases hv : validationErrors bag with
      | nil => exact absurd hv h
      | cons a l => rfl
    simp [smart_capture, hne]
  · intro hp hvp
    simp [validationErrors, hp, hvp]

/-- Witness for C6: the five-digit phone bag is rejected in the fresh
world. -/
theorem validation_rejection_no_persist_witness :
    validationErrors bagPhone5 ≠ [] ∧
      smart_capture bagPhone5 capW0 =
        Except.ok (capW0, Msg.rejected (validationErrors bagPhone5)) := by
  refine ⟨by decide, (validation_rejection_no_persist capW0 bagPhone5 (by decide)).1⟩

/-! C5: characterization of the phone validator. -/

/-- C5: the phone validator accepts an absent value and the empty string,
and it accepts any other supplied string exactly when the digits left after
stripping every non-digit character number exactly ten and the first of
them is 6, 7, 8 or 9. -/
theorem validate_phone_correct :
    validate_phone none = true ∧ validate_phone (some "") = true ∧
      ∀ s : String, s ≠ "" →
        (validate_phone (some s) = true ↔
          ((s.data.filter Char.isDigit).length = 10 ∧
            ∃ c, (s.data.filter Char.isDigit).head? = some c ∧
              (c = '6' ∨ c = '7' ∨ c = '8' ∨ c = '9'))) := by
  refine ⟨rfl, rfl, ?_⟩
  intro s hs
  have hall : ∀ x ∈ stripNonDigits s, x.isDigit = true :=
    fun x hx => (List.mem_filter.mp hx).2
  have hstrip : s.data.filter Char.isDigit = stripNonDigits s := rfl
  rw [validate_phone, if_neg hs, hstrip]
  cases hl : stripNonDigits s with
  | nil => simp [phoneCore]
  | cons c rest =>
    have hrest : rest.all Char.isDigit = true := by
      rw [List.all_eq_true]
      intro x hx
      exact hall x (by rw [hl]; exact List.mem_cons_of_mem c hx)
    constructor
    · intro hcore
      simp only [phoneCore, Bool.and_eq_true, Bool.or_eq_true, beq_iff_eq,
        decide_eq_true_eq] at hcore
      obtain ⟨⟨hc, hlen⟩, _⟩ := hcore
      exact ⟨by simp [hlen], c, rfl, by tauto⟩
    · rintro ⟨hlen, c', hc', hcases⟩
      simp only [List.head?_cons, Option.some.injEq] at hc'
      subst hc'
      simp only [List.length_cons] at hlen
      simp only [phoneCore, Bool.and_eq_true, Bool.or_eq_true, beq_iff_eq,
        decide_eq_true_eq]
      exact ⟨⟨by tauto, by omega⟩, hrest⟩

/-- Witness for C5: a spaced ten-digit number starting with 9 is
accepted. -/
theorem validate_phone_correct_witness :
    validate_phone (some "98765 43210") = true :=
  (validate_phone_correct.2.2 "98765 43210" (by decide)).mpr (by decide)

/-! C4: the resolver checks reg_no, then phone, then email, and the first
match wins. -/

lemma find_cons (db : DB) (f : IdField) (v : String) (rest : List (IdField × String)) :
    find_existing_user db ((f, v) :: rest) =
      match (db.users.find? fun u => getIdField u f == some v).map (fun u => u.id) with
      | some i => some i
      | none => find_existing_user db rest := by
  cases hf : db.users.find? fun u => getIdField u f == some v
  · simp [find_existing_user, hf]
  · simp [find_existing_user, hf]

lemma extract_eq (bag : Bag) :
    extract_identifiers bag =
      ((truthyVal bag.reg_no).map fun v => (IdField.reg_no, v)).toList ++
      ((truthyVal bag.phone).map fun v => (IdField.phone, v)).toList ++
      ((truthyVal bag.email).map fun v => (IdField.email, v)).toList := by
  have hr : bagId bag IdField.reg_no = bag.reg_no := rfl
  have hp : bagId bag IdField.phone = bag.phone := rfl
  have he : bagId bag IdField.email = bag.email := rfl
  simp only [extract_identifiers, idFields, List.filterMap_cons, List.filterMap_nil,
    hr, hp, he]
  cases truthyVal bag.reg_no <;> cases truthyVal bag.phone <;>
    cases truthyVal bag.email <;> simp

lemma find_nil (db : DB) : find_existing_user db [] = none := rfl

/-- C4: walking the extracted identifiers equals checking the three fields
in the fixed order reg_no, phone, email, each as a first-row point lookup;
in particular, when the reg_no of the bag matches one identity and the
phone matches another, the reg_no match is returned. -/
theorem resolver_check_order :
    (∀ db bag, find_existing_user db (extract_identifiers bag) = resolveSpec db bag) ∧
      (∀ db bag i j, lookupBy db .reg_no bag.reg_no = some i →
        lookupBy db .phone bag.phone = some j →
        find_existing_user db (extract_identifiers bag) = some i) := by
  have main : ∀ db bag,
      find_existing_user db (extract_identifiers bag) = resolveSpec db bag := by
    intro db bag
    rw [extract_eq]
    cases hr : truthyVal bag.reg_no with
    | some vr =>
      cases hfr : db.users.find? (fun u => getIdField u IdField.reg_no == some vr) with
      | some u =>
        simp [resolveSpec, lookupBy, hr, hfr, find_existing_user]
      | none =>
        cases hp : truthyVal bag.phone with
        | some vp =>
          cases hfp : db.users.find? (fun u => getIdField u IdField.phone == some vp) with
          | some u =>
            simp [resolveSpec, lookupBy, hr, hfr, hp, hfp, find_existing_user]
          | none =>
            cases he : truthyVal bag.email with
            | some ve =>
              cases hfe : db.users.find? (fun u => getIdField u IdField.email == some ve) with
              | some u =>
                simp [resolveSpec, lookupBy, hr, hfr, hp, hfp, he, hfe, find_existing_user]
              | none =>
                simp [resolveSpec, lookupBy, hr, hfr, hp, hfp, he, hfe, find_existing_user]
            | none =>
              simp [resolveSpec, lookupBy, hr, hfr, hp, hfp, he, find_existing_user]
        | none =>
          cases he : truthyVal bag.email with
          | some ve =>
            cases hfe : db.users.find? (fun u => getIdField u IdField.email == some ve) with
            | some u =>
              simp [resolveSpec, lookupBy, hr, hfr, hp, he, hfe, find_existing_user]
            | none =>
              simp [resolveSpec, lookupBy, hr, hfr, hp, he, hfe, find_existing_user]
          | none =>
            simp [resolveSpec, lookupBy, hr, hfr, hp, he, find_existing_user]
    | none =>
      cases hp : truthyVal bag.phone with
      | some vp =>
        cases hfp : db.users.find? (fun u => getIdField u IdField.phone == some vp) with
        | some u =>
          simp [resolveSpec, lookupBy, hr, hp, hfp, find_existing_user]
        | none =>
          cases he : truthyVal bag.email with
          | some ve =>
            cases hfe : db.users.find? (fun u => getIdField u IdField.email == some ve) with
            | some u =>
              simp [resolveSpec, lookupBy, hr, hp, hfp, he, hfe, find_existing_user]
            | none =>
              simp [resolveSpec, lookupBy, hr, hp, hfp, he, hfe, find_existing_user]
          | none =>
            simp [resolveSpec, lookupBy, hr, hp, hfp, he, find_existing_user]
      | none =>
        cases he : truthyVal bag.email with
        | some ve =>
          cases hfe : db.users.find? (fun u => getIdField u IdField.email == some ve) with
          | some u =>
            simp [resolveSpec, lookupBy, hr, hp, he, hfe, find_existing_user]
          | none =>
            simp [resolveSpec, lookupBy, hr, hp, he, hfe, find_existing_user]
        | none =>
          simp [resolveSpec, lookupBy, hr, hp, he, find_existing_user]
  refine ⟨main, ?_⟩
  intro db bag i j hi hj
  rw [main db bag, resolveSpec, hi]

/-- Witness for C4: in a store where identity 1 holds the registration
number and identity 2 holds the phone number of the bag, the resolver
returns identity 1. -/
theorem resolver_check_order_witness :
    lookupBy dbTwo .reg_no bagTie.reg_no = some 1 ∧
      lookupBy dbTwo .phone bagTie.phone = some 2 ∧
      find_existing_user dbTwo (extract_identifiers bagTie) = some 1 :=
  ⟨rfl, rfl, resolver_check_order.2 dbTwo bagTie 1 2 rfl rfl⟩

/-! C2: behavior when the resolver reports no match but the insert hits
the uniqueness constraint. -/

/-- C2 counterexample: in wAfterA the stored user holds an empty-string
phone; for bagNameB the resolver reports no match yet the insert violates
the phone UNIQUE constraint, and the capture operation does not retry as a
merge: the database is left completely unchanged (no field merge, no
counter bump, no interaction row) and the bag is instead appended to the
CSV fallback log with the generic recorded message. -/
theorem constraint_race_no_merge_cex :
    is_new_user wAfterA.db bagNameB = true ∧
      insertConflict wAfterA.db bagNameB = true ∧
      smart_capture bagNameB wAfterA =
        Except.ok ({ wAfterA with csv := wAfterA.csv ++ [(0, bagNameB)] },
          Msg.fallbackRecorded) ∧
      ({ wAfterA with csv := wAfterA.csv ++ [(0, bagNameB)] } : World).db =
        wAfterA.db :=
  ⟨rfl, rfl, rfl, rfl⟩

/-- C2 amended: when the resolver reports no match, the insert raises a
uniqueness violation and the CSV log is writable, the capture operation
catches the error, appends the bag to the CSV fallback log and returns the
generic recorded message; the primary store is not touched (no merge is
retried) and no exception reaches the caller. -/
theorem constraint_violation_csv_fallback (w : World) (bag : Bag)
    (hv : validationErrors bag = []) (hm : meaningful bag = true)
    (hdb : w.dbFails = false) (hnew : is_new_user w.db bag = true)
    (hconf : insertConflict w.db bag = true) (hcsv : w.csvFails = false) :
    smart_capture bag w =
      Except.ok ({ w with csv := w.csv ++ [(w.now, bag)] }, Msg.fallbackRecorded) := by
  simp [smart_capture, hv, hm, tryBody, hdb, hnew, create_new_user, hconf,
    save_to_csv, hcsv]

/-- Witness for the amended C2 at the concrete scenario. -/
theorem constraint_violation_csv_fallback_witness :
    validationErrors bagNameB = [] ∧ meaningful bagNameB = true ∧
      wAfterA.dbFails = false ∧ is_new_user wAfterA.db bagNameB = true ∧
      insertConflict wAfterA.db bagNameB = true ∧ wAfterA.csvFails = false ∧
      smart_capture bagNameB wAfterA =
        Except.ok ({ wAfterA with csv := wAfterA.csv ++ [(wAfterA.now, bagNameB)] },
          Msg.fallbackRecorded) :=
  ⟨rfl, rfl, rfl, rfl, rfl, rfl,
    constraint_violation_csv_fallback wAfterA bagNameB rfl rfl rfl rfl rfl rfl⟩

/-! C3: bags with no identifier field. -/

/-- C3 counterexample: the bag carrying only a name supplies no identifier
at all, yet the capture operation creates and persists an Identity record
for it. -/
theorem nameonly_creates_identity_cex :
    extract_identifiers bagNameA0 = [] ∧
      smart_capture bagNameA0 capW0 = Except.ok (wAfterA0, Msg.recordedNew) ∧
      wAfterA0.db.users.length = 1 :=
  ⟨rfl, rfl, rfl⟩

/-- C3 amended: a bag with no identifier and no name is acknowledged
without crashing and persists nothing; a bag with a truthy name but all
identifier fields absent is treated as a new user and persists exactly one
new Identity record. -/
theorem no_identifier_bag_behavior :
    (∀ w bag, truthy bag.name = false → truthy bag.reg_no = false →
      truthy bag.phone = false → truthy bag.email = false →
      smart_capture bag w = Except.ok (w, Msg.acknowledged)) ∧
    (∀ w bag, truthy bag.name = true → bag.reg_no = none → bag.phone = none →
      bag.email = none → w.dbFails = false → w.csvFails = false →
      ∃ w2, smart_capture bag w = Except.ok (w2, Msg.recordedNew) ∧
        w2.db.users.length = w.db.users.length + 1) := by
  constructor
  · intro w bag hn hr hp he
    simp [smart_capture, validationErrors, meaningful, hn, hr, hp, he]
  · intro w bag hn hr hp he hdb hcsv
    have htr : truthy bag.reg_no = false := by simp [truthy, truthyVal, hr]
    have htp : truthy bag.phone = false := by simp [truthy, truthyVal, hp]
    have hte : truthy bag.email = false := by simp [truthy, truthyVal, he]
    have hvs : validationErrors bag = [] := by
      simp [validationErrors, htr, htp, hte]
    have hnew : is_new_user w.db bag = true := by
      simp [is_new_user, extract_eq, hr, hp, he, truthyVal, find_existing_user]
    have hconf : insertConflict w.db bag = false := by
      simp [insertConflict, idFields, bagId, hr, hp, he]
    refine ⟨{ w with
        db := log_interaction
          { w.db with
            users := w.db.users ++
              [{ id := w.db.nextId, name := bag.name, reg_no := bag.reg_no,
                 phone := bag.phone, email := bag.email,
                 first_interaction := w.now, last_interaction := w.now,
                 interaction_count := 1, is_lead := true }],
            nextId := w.db.nextId + 1 }
          w.db.nextId (ctxOf bag) w.now,
        csv := w.csv ++ [(w.now, bag)] }, ?_, ?_⟩
    · simp [smart_capture, hvs, meaningful, hn, tryBody, hdb, hnew,
        create_new_user, hconf, save_to_csv, hcsv]
    · simp [log_interaction]

/-- Witness for the amended C3: the name-only bag in the fresh world. -/
theorem no_identifier_bag_behavior_witness :
    truthy bagNameA0.name = true ∧
      ∃ w2, smart_capture bagNameA0 capW0 = Except.ok (w2, Msg.recordedNew) ∧
        w2.db.users.length = capW0.db.users.length + 1 :=
  ⟨rfl, no_identifier_bag_behavior.2 capW0 bagNameA0 rfl rfl rfl rfl rfl rfl⟩

/-! C9: exception propagation out of the capture entry point. -/

lemma save_to_csv_ok_inv {bag : Bag} {w w2 : World}
    (h : save_to_csv bag w = Except.ok w2) :
    w2 = { w with csv := w.csv ++ [(w.now, bag)] } ∧ w.csvFails = false := by
  unfold save_to_csv at h
  cases hc : w.csvFails with
  | true => rw [hc] at h; simp at h
  | false =>
    rw [hc] at h
    simp only [if_neg Bool.false_ne_true, Except.ok.injEq] at h
    exact ⟨h.symm, rfl⟩

lemma tryBody_csvFails (bag : Bag) (w : World) :
    (tryBody bag w).1.csvFails = w.csvFails := by
  rcases w with ⟨db, csv, dbF, csvF, now⟩
  unfold tryBody
  cases dbF with
  | true => rfl
  | false =>
    cases hnew : is_new_user db bag with
    | true =>
      cases hc : create_new_user db bag now with
      | error e => simp [hnew, hc]
      | ok p =>
        rcases p with ⟨db1, uid⟩
        cases hs : save_to_csv bag
            { db := log_interaction db1 uid (ctxOf bag) now, csv := csv,
              dbFails := false, csvFails := csvF, now := now } with
        | error e => simp [hnew, hc, hs]
        | ok w2 =>
          have h2 := save_to_csv_ok_inv hs
          simp [hnew, hc, hs, h2.1]
    | false =>
      cases hf : find_existing_user db (extract_identifiers bag) with
      | none => simp [hnew, hf]
      | some uid =>
        cases hu : update_existing_user db uid bag now with
        | error e => simp [hnew, hf, hu]
        | ok db1 => simp [hnew, hf, hu]

/-- C9 counterexample: with the primary store unavailable and the CSV
fallback log unwritable, the capture entry point lets the raw exception of
the final CSV append propagate to its caller instead of returning one of
the defined result kinds. -/
theorem capture_double_failure_raises_cex :
    smart_capture bagAsha wBothFail = Except.error () := rfl

/-- C9 amended: whenever the CSV fallback log is writable, the capture
entry point returns normally with one of the defined result kinds, for
every input bag and regardless of primary-store failures; only a failure
of the fallback append itself escapes as a raw exception. -/
theorem capture_total_when_csv_ok (w : World) (bag : Bag)
    (h : w.csvFails = false) :
    ∃ r, smart_capture bag w = Except.ok r := by
  cases hvs : (validationErrors bag).isEmpty with
  | false =>
    exact ⟨(w, .rejected (validationErrors bag)), by simp [smart_capture, hvs]⟩
  | true =>
    cases hm : meaningful bag with
    | false => exact ⟨(w, .acknowledged), by simp [smart_capture, hvs, hm]⟩
    | true =>
      rcases htb : tryBody bag w with ⟨w1, m⟩
      have hw1 : w1.csvFails = false := by
        have hp0 := tryBody_csvFails bag w
        rw [htb] at hp0
        have hpres : w1.csvFails = w.csvFails := hp0
        rw [hpres]
        exact h
      cases m with
      | some msg => exact ⟨(w1, msg), by simp [smart_capture, hvs, hm, htb]⟩
      | none =>
        exact ⟨({ w1 with csv := w1.csv ++ [(w1.now, bag)] }, .fallbackRecorded),
          by simp [smart_capture, hvs, hm, htb, save_to_csv, hw1]⟩

/-- Witness for the amended C9: the double-failure bag with a writable CSV
log returns normally even though the primary store fails. -/
theorem capture_total_when_csv_ok_witness :
    ({ db := emptyDB, csv := [], dbFails := true, csvFails := false,
        now := 0 } : World).csvFails = false ∧
      ∃ r, smart_capture bagAsha
        { db := emptyDB, csv := [], dbFails := true, csvFails := false,
          now := 0 } = Except.ok r :=
  ⟨rfl, capture_total_when_csv_ok
    { db := emptyDB, csv := [], dbFails := true, csvFails := false, now := 0 }
    bagAsha rfl⟩

/-! C10: empty-string fields versus absent fields. -/

/-- C10 counterexample: the second capture of a distinct user whose bag
carries an empty-string phone takes the constraint-violation CSV fallback
path, while the identical bag with the phone absent is recorded as a new
user; empty-string fields therefore do not behave exactly like absent
fields at the public interface. -/
theorem empty_string_not_like_absent_cex :
    smart_capture bagNameB wAfterA =
        Except.ok ({ wAfterA with csv := wAfterA.csv ++ [(0, bagNameB)] },
          Msg.fallbackRecorded) ∧
      smart_capture bagNameB0 wAfterA0 = Except.ok (wAfterB0, Msg.recordedNew) ∧
      Msg.fallbackRecorded ≠ Msg.recordedNew :=
  ⟨rfl, rfl, by decide⟩

/-- C10 amended: the three validators accept the empty string, an
empty-string field is never extracted as an identifier for matching, and a
bag whose every supplied field is the empty string is acknowledged without
touching storage, exactly like an all-absent bag; however an empty string
supplied alongside a truthy field is inserted as a real value into a
UNIQUE column, so empty-string fields do not behave like absent fields on
the create path. -/
theorem empty_string_fields_behavior :
    (validate_phone (some "") = true ∧ validate_email (some "") = true ∧
      validate_reg_no (some "") = true) ∧
    (∀ bag f v, bagId bag f = some "" → (f, v) ∉ extract_identifiers bag) ∧
    (∀ w bag,
      (bag.name = none ∨ bag.name = some "") →
      (bag.reg_no = none ∨ bag.reg_no = some "") →
      (bag.phone = none ∨ bag.phone = some "") →
      (bag.email = none ∨ bag.email = some "") →
      smart_capture bag w = Except.ok (w, Msg.acknowledged)) := by
  refine ⟨⟨rfl, rfl, rfl⟩, ?_, ?_⟩
  · intro bag f v hf hmem
    rw [extract_eq] at hmem
    cases f with
    | reg_no =>
      have hb : bag.reg_no = some "" := hf
      simp [hb, truthyVal] at hmem
    | phone =>
      have hb : bag.phone = some "" := hf
      simp [hb, truthyVal] at hmem
    | email =>
      have hb : bag.email = some "" := hf
      simp [hb, truthyVal] at hmem
  · intro w bag hn hr hp he
    have hn' : truthy bag.name = false := by
      rcases hn with h | h <;> simp [truthy, truthyVal, h]
    have hr' : truthy bag.reg_no = false := by
      rcases hr with h | h <;> simp [truthy, truthyVal, h]
    have hp' : truthy bag.phone = false := by
      rcases hp with h | h <;> simp [truthy, truthyVal, h]
    have he' : truthy bag.email = false := by
      rcases he with h | h <;> simp [truthy, truthyVal, h]
    simp [smart_capture, validationErrors, meaningful, hn', hr', hp', he']

/-- Witness for the amended C10: the all-empty-string bag in the fresh
world is acknowledged, and the empty-string phone of bagNameA is not
extracted as an identifier. -/
theorem empty_string_fields_behavior_witness :
    bagId bagNameA .phone = some "" ∧
      (IdField.phone, "x") ∉ extract_identifiers bagNameA ∧
      smart_capture bagAllEmpty capW0 = Except.ok (capW0, Msg.acknowledged) :=
  ⟨rfl, empty_string_fields_behavior.2.1 bagNameA .phone "x" rfl,
    empty_string_fields_behavior.2.2 capW0 bagAllEmpty (Or.inr rfl) (Or.inr rfl)
      (Or.inr rfl) (Or.inr rfl)⟩

/-! C1: the uniqueness invariant is enforced at write time and preserved
by the two mutating capture operations. -/

lemma getIdField_applyUpd (bag : Bag) (now : Nat) (u : UserRow) (f : IdField) :
    getIdField (applyUpd bag now u) f =
      if truthy (bagId bag f) then bagId bag f else getIdField u f := by
  cases f <;> simp [applyUpd, getIdField, bagId]

lemma insertConflict_false_iff (db : DB) (bag : Bag) :
    insertConflict db bag = false ↔
      ∀ f : IdField, ∀ v : String, bagId bag f = some v →
        ∀ u ∈ db.users, getIdField u f ≠ some v := by
  unfold insertConflict
  rw [show idFields = [IdField.reg_no, IdField.phone, IdField.email] from rfl]
  simp only [List.any_cons, List.any_nil, Bool.or_false, Bool.or_eq_false_iff]
  constructor
  · rintro ⟨h1, h2, h3⟩ f v hv u hu heq
    cases f with
    | reg_no =>
      simp only [hv, List.any_eq_false] at h1
      exact h1 u hu (by simp [heq])
    | phone =>
      simp only [hv, List.any_eq_false] at h2
      exact h2 u hu (by simp [heq])
    | email =>
      simp only [hv, List.any_eq_false] at h3
      exact h3 u hu (by simp [heq])
  · intro h
    refine ⟨?_, ?_, ?_⟩
    · cases hv : bagId bag IdField.reg_no with
      | none => rfl
      | some v =>
        simp only [List.any_eq_false]
        intro u hu
        simp only [beq_iff_eq]
        exact h IdField.reg_no v hv u hu
    · cases hv : bagId bag IdField.phone with
      | none => rfl
      | some v =>
        simp only [List.any_eq_false]
        intro u hu
        simp only [beq_iff_eq]
        exact h IdField.phone v hv u hu
    · cases hv : bagId bag IdField.email with
      | none => rfl
      | some v =>
        simp only [List.any_eq_false]
        intro u hu
        simp only [beq_iff_eq]
        exact h IdField.email v hv u hu

lemma updConflict_false_iff (db : DB) (uid : Nat) (bag : Bag) :
    updConflict db uid bag = false ↔
      ∀ f : IdField, ∀ v : String, truthyVal (bagId bag f) = some v →
        ∀ u ∈ db.users, u.id ≠ uid → getIdField u f ≠ some v := by
  unfold updConflict
  rw [show idFields = [IdField.reg_no, IdField.phone, IdField.email] from rfl]
  simp only [List.any_cons, List.any_nil, Bool.or_false, Bool.or_eq_false_iff]
  constructor
  · rintro ⟨h1, h2, h3⟩ f v hv u hu hne heq
    cases f with
    | reg_no =>
      simp only [hv, List.any_eq_false] at h1
      exact h1 u hu (by simp [hne, heq])
    | phone =>
      simp only [hv, List.any_eq_false] at h2
      exact h2 u hu (by simp [hne, heq])
    | email =>
      simp only [hv, List.any_eq_false] at h3
      exact h3 u hu (by simp [hne, heq])
  · intro h
    refine ⟨?_, ?_, ?_⟩
    · cases hv : truthyVal (bagId bag IdField.reg_no) with
      | none => rfl
      | some v =>
        simp only [List.any_eq_false]
        intro u hu
        by_cases hne : u.id = uid
        · simp [hne]
        · simp only [Bool.and_eq_true, bne_iff_ne, beq_iff_eq, ne_eq, not_and]
          intro h1'
          exact h IdField.reg_no v hv u hu hne
    · cases hv : truthyVal (bagId bag IdField.phone) with
      | none => rfl
      | some v =>
        simp only [List.any_eq_false]
        intro u hu
        by_cases hne : u.id = uid
        · simp [hne]
        · simp only [Bool.and_eq_true, bne_iff_ne, beq_iff_eq, ne_eq, not_and]
          intro h1'
          exact h IdField.phone v hv u hu hne
    · cases hv : truthyVal (bagId bag IdField.email) with
      | none => rfl
      | some v =>
        simp only [List.any_eq_false]
        intro u hu
        by_cases hne : u.id = uid
        · simp [hne]
        · simp only [Bool.and_eq_true, bne_iff_ne, beq_iff_eq, ne_eq, not_and]
          intro h1'
          exact h IdField.email v hv u hu hne

/-- C1: in any store satisfying the invariant, a successful
create_new_user and a successful update_existing_user both yield a store
that still satisfies it, so no two Identity records ever share a non-null
reg_no, phone or email value; and the constraint is enforced at write
time: an insert that would collide is refused by the store with an
error. -/
theorem store_uniqueness_invariant (db : DB) (bag : Bag) (uid now : Nat)
    (h : StoreInv db) :
    (∀ db2 i, create_new_user db bag now = Except.ok (db2, i) → StoreInv db2) ∧
      (∀ db2, update_existing_user db uid bag now = Except.ok db2 → StoreInv db2) ∧
      (insertConflict db bag = true →
        create_new_user db bag now = Except.error ()) := by
  obtain ⟨hpair, hnodup, hlt⟩ := h
  refine ⟨?_, ?_, ?_⟩
  · intro db2 i hc
    have hconf : insertConflict db bag = false := by
      cases hic : insertConflict db bag with
      | false => rfl
      | true => simp [create_new_user, hic] at hc
    simp only [create_new_user, hconf, Bool.false_eq_true, if_false,
      Except.ok.injEq, Prod.mk.injEq] at hc
    obtain ⟨hdb2, hi⟩ := hc
    subst hdb2
    refine ⟨?_, ?_, ?_⟩
    · simp only [uniqIdent]
      rw [List.pairwise_append]
      refine ⟨hpair, List.pairwise_singleton _ _, ?_⟩
      intro a ha b hb
      simp only [List.mem_singleton] at hb
      subst hb
      intro f v hav hbv
      have hrowf : getIdField
          { id := db.nextId, name := bag.name, reg_no := bag.reg_no,
            phone := bag.phone, email := bag.email, first_interaction := now,
            last_interaction := now, interaction_count := 1, is_lead := true }
          f = bagId bag f := by
        cases f <;> rfl
      rw [hrowf] at hbv
      exact (insertConflict_false_iff db bag).mp hconf f v hbv a ha hav
    · simp only [List.map_append, List.map_cons, List.map_nil]
      refine List.Nodup.append hnodup (List.nodup_singleton _) ?_
      intro a ha hb
      simp only [List.mem_singleton] at hb
      subst hb
      obtain ⟨u, hu, hid⟩ := List.mem_map.mp ha
      have := hlt u hu
      omega
    · intro u hu
      rcases List.mem_append.mp hu with h1 | h1
      · exact Nat.lt_succ_of_lt (hlt u h1)
      · simp only [List.mem_singleton] at h1
        subst h1
        exact Nat.lt_succ_self _
  · intro db2 hu
    have hconf : updConflict db uid bag = false := by
      cases hic : updConflict db uid bag with
      | false => rfl
      | true => simp [update_existing_user, hic] at hu
    simp only [update_existing_user, hconf, Bool.false_eq_true, if_false,
      Except.ok.injEq] at hu
    subst hu
    have hid : ∀ u : UserRow,
        (if u.id = uid then applyUpd bag now u else u).id = u.id := by
      intro u
      by_cases hcase : u.id = uid <;> simp [hcase, applyUpd]
    refine ⟨?_, ?_, ?_⟩
    · simp only [uniqIdent]
      rw [List.pairwise_map]
      have hne : db.users.Pairwise fun a b => a.id ≠ b.id :=
        List.pairwise_map.mp hnodup
      have hcomb := hpair.and hne
      refine hcomb.imp_of_mem ?_
      intro a b ha hb hab2
      obtain ⟨hab, hidne⟩ := hab2
      intro f v haf hbf
      by_cases hA : a.id = uid
      · by_cases hB : b.id = uid
        · exact hidne (hA.trans hB.symm)
        · rw [if_pos hA] at haf
          rw [if_neg hB] at hbf
          rw [getIdField_applyUpd] at haf
          by_cases ht : truthy (bagId bag f)
          · rw [if_pos ht] at haf
            have htv : truthyVal (bagId bag f) = some v := by
              rw [truthyVal_of_truthy ht, haf]
            exact (updConflict_false_iff db uid bag).mp hconf f v htv b hb hB hbf
          · rw [if_neg ht] at haf
            exact hab f v haf hbf
      · by_cases hB : b.id = uid
        · rw [if_neg hA] at haf
          rw [if_pos hB] at hbf
          rw [getIdField_applyUpd] at hbf
          by_cases ht : truthy (bagId bag f)
          · rw [if_pos ht] at hbf
            have htv : truthyVal (bagId bag f) = some v := by
              rw [truthyVal_of_truthy ht, hbf]
            exact (updConflict_false_iff db uid bag).mp hconf f v htv a ha hA haf
          · rw [if_neg ht] at hbf
            exact hab f v haf hbf
        · rw [if_neg hA] at haf
          rw [if_neg hB] at hbf
          exact hab f v haf hbf
    · simp only [List.map_map]
      have hfg : ((fun u : UserRow => u.id) ∘
          fun u => if u.id = uid then applyUpd bag now u else u) =
          fun u : UserRow => u.id :=
        funext fun u => hid u
      rw [hfg]
      exact hnodup
    · intro u hu
      obtain ⟨u0, hu0, hgu⟩ := List.mem_map.mp hu
      subst hgu
      rw [hid u0]
      exact hlt u0 hu0
  · intro hc
    simp [create_new_user, hc]

/-- Witness for C1: the empty store satisfies the invariant and the store
obtained by creating the name-only user in it still does. -/
theorem store_uniqueness_invariant_witness :
    StoreInv emptyDB ∧
      StoreInv { users := [⟨1, some "A", none, none, none, 0, 0, 1, true⟩],
                 nextId := 2, interactions := [] } := by
  have hinv : StoreInv emptyDB :=
    ⟨List.Pairwise.nil, by simp [emptyDB], by simp [emptyDB]⟩
  refine ⟨hinv, ?_⟩
  exact (store_uniqueness_invariant emptyDB bagNameA0 0 0 hinv).1
    { users := [⟨1, some "A", none, none, none, 0, 0, 1, true⟩], nextId := 2,
      interactions := [] } 1 rfl

/-! C8: idempotence of a repeated capture that resolves to an existing
identity. -/

lemma find_mem {db : DB} {ids : List (IdField × String)} {uid : Nat}
    (h : find_existing_user db ids = some uid) :
    ∃ u ∈ db.users, u.id = uid := by
  induction ids with
  | nil => simp [find_existing_user] at h
  | cons p rest ih =>
    rcases p with ⟨f, v⟩
    rw [find_existing_user] at h
    cases hf : db.users.find? (fun u => getIdField u f == some v) with
    | some u =>
      rw [hf] at h
      simp only [Option.some.injEq] at h
      exact ⟨u, List.mem_of_find?_eq_some hf, h⟩
    | none =>
      rw [hf] at h
      exact ih h

lemma update_ok_inv {db : DB} {uid : Nat} {bag : Bag} {now : Nat} {db1 : DB}
    (h : update_existing_user db uid bag now = Except.ok db1) :
    updConflict db uid bag = false ∧
      db1 = { db with
        users := db.users.map fun u =>
          if u.id = uid then applyUpd bag now u else u } := by
  unfold update_existing_user at h
  cases hc : updConflict db uid bag with
  | true => rw [hc] at h; simp at h
  | false =>
    rw [hc] at h
    simp only [Bool.false_eq_true, if_false, Except.ok.injEq] at h
    exact ⟨rfl, h.symm⟩

lemma extract_mem {bag : Bag} {p : IdField × String}
    (h : p ∈ extract_identifiers bag) :
    truthyVal (bagId bag p.1) = some p.2 := by
  unfold extract_identifiers at h
  obtain ⟨f, hf, hmap⟩ := List.mem_filterMap.mp h
  cases hv : truthyVal (bagId bag f) with
  | none => rw [hv] at hmap; simp at hmap
  | some v =>
    rw [hv] at hmap
    have hmap2 : (f, v) = p := by simpa using hmap
    rw [← hmap2]
    exact hv

lemma applyUpd_id (bag : Bag) (now : Nat) (u : UserRow) :
    (applyUpd bag now u).id = u.id := rfl

lemma find_after_update (db : DB) (uid : Nat) (bag : Bag) (now : Nat)
    (db1 : DB)
    (husers : db1.users = db.users.map fun u =>
      if u.id = uid then applyUpd bag now u else u)
    (hc : updConflict db uid bag = false)
    (hmem : ∃ u ∈ db.users, u.id = uid)
    (f : IdField) (v : String) (rest : List (IdField × String))
    (hx : extract_identifiers bag = (f, v) :: rest) :
    find_existing_user db1 (extract_identifiers bag) = some uid := by
  have hfv : truthyVal (bagId bag f) = some v :=
    extract_mem (p := (f, v)) (by rw [hx]; exact List.mem_cons_self _ _)
  have htr : truthy (bagId bag f) = true := by rw [truthy, hfv]; rfl
  rw [hx, find_existing_user]
  obtain ⟨u0, hu0, hid0⟩ := hmem
  have hmem1 : applyUpd bag now u0 ∈ db1.users := by
    rw [husers]
    have h0 := List.mem_map_of_mem
      (fun u => if u.id = uid then applyUpd bag now u else u) hu0
    have h1 : (if u0.id = uid then applyUpd bag now u0 else u0) ∈
        db.users.map (fun u => if u.id = uid then applyUpd bag now u else u) := h0
    rw [if_pos hid0] at h1
    exact h1
  have hsat : (getIdField (applyUpd bag now u0) f == some v) = true := by
    rw [getIdField_applyUpd, if_pos htr, (truthyVal_some hfv).1]
    exact beq_self_eq_true _
  cases hfind : db1.users.find? (fun u => getIdField u f == some v) with
  | none =>
    exact absurd hsat (List.find?_eq_none.mp hfind _ hmem1)
  | some r =>
    have hrmem : r ∈ db1.users := List.mem_of_find?_eq_some hfind
    have hrsat := List.find?_some hfind
    rw [husers] at hrmem
    obtain ⟨r0, hr0, hr0eq⟩ := List.mem_map.mp hrmem
    by_cases hr0id : r0.id = uid
    · have hrid : r.id = uid := by
        rw [← hr0eq, if_pos hr0id, applyUpd_id]
        exact hr0id
      simp [hrid]
    · have hre : r = r0 := by rw [← hr0eq, if_neg hr0id]
      rw [hre] at hrsat
      have heq : getIdField r0 f = some v := by simpa using hrsat
      exact absurd heq
        ((updConflict_false_iff db uid bag).mp hc f v hfv r0 hr0 hr0id)

lemma updConflict_after (db : DB) (uid : Nat) (bag : Bag) (now : Nat)
    (db1 : DB)
    (husers : db1.users = db.users.map fun u =>
      if u.id = uid then applyUpd bag now u else u)
    (hc : updConflict db uid bag = false) :
    updConflict db1 uid bag = false := by
  rw [updConflict_false_iff]
  intro f v hv u hu hne
  rw [husers] at hu
  obtain ⟨u0, hu0, hu0eq⟩ := List.mem_map.mp hu
  by_cases h0 : u0.id = uid
  · exfalso
    apply hne
    rw [← hu0eq, if_pos h0, applyUpd_id]
    exact h0
  · have hre : u = u0 := by rw [← hu0eq, if_neg h0]
    rw [hre]
    exact (updConflict_false_iff db uid bag).mp hc f v hv u0 hu0 h0

lemma proj_applyUpd_applyUpd (bag : Bag) (n1 n2 : Nat) (u : UserRow) :
    proj (applyUpd bag n2 (applyUpd bag n1 u)) = proj (applyUpd bag n1 u) := by
  cases hn : truthy bag.name <;> cases hr : truthy bag.reg_no <;>
    cases hp : truthy bag.phone <;> cases he : truthy bag.email <;>
      simp [proj, applyUpd, hn, hr, hp, he]

/-- C8: if a capture of a bag returns the returning-user result, then a
second capture of the identical bag again returns the returning-user
result (isNew stays false), and the id, name, reg_no, phone and email of
every stored row are identical after both calls; only interaction counters,
timestamps and the interaction log differ. -/
theorem capture_merge_idempotent (w w1 : World) (bag : Bag)
    (h : smart_capture bag w = Except.ok (w1, Msg.recordedExisting)) :
    ∃ w2, smart_capture bag w1 = Except.ok (w2, Msg.recordedExisting) ∧
      w2.db.users.map proj = w1.db.users.map proj := by
  simp only [smart_capture] at h
  split at h
  · simp at h
  split at h
  · simp at h
  next hvsB hmB =>
  split at h
  next w1' m heq =>
    simp only [Except.ok.injEq, Prod.mk.injEq] at h
    obtain ⟨hw1', hm⟩ := h
    subst hw1'
    subst hm
    simp only [tryBody] at heq
    split at heq
    · simp at heq
    next hdbB =>
    split at heq
    · -- new-user path cannot produce the returning-user message
      split at heq
      · simp at heq
      · split at heq
        · simp at heq
        · simp at heq
    next hnewB =>
    split at heq
    · simp at heq
    next uid hfind =>
    split at heq
    · simp at heq
    next db1 hupd =>
    simp only [Prod.mk.injEq, Option.some.injEq] at heq
    obtain ⟨hw1, _⟩ := heq
    subst hw1
    -- collected: validations pass, bag meaningful, store up, resolver
    -- found uid, update succeeded
    have hvs : (validationErrors bag).isEmpty = true := by
      revert hvsB
      cases (validationErrors bag).isEmpty <;> simp
    have hm2 : meaningful bag = true := by
      revert hmB
      cases meaningful bag <;> simp
    have hdb : w.dbFails = false := by
      revert hdbB
      cases w.dbFails <;> simp
    obtain ⟨hcnf, hdb1⟩ := update_ok_inv hupd
    have hmem : ∃ u ∈ w.db.users, u.id = uid := find_mem hfind
    have husers1 :
        (log_interaction db1 uid (ctxOf bag) w.now).users =
          w.db.users.map fun u =>
            if u.id = uid then applyUpd bag w.now u else u := by
      rw [hdb1]
      rfl
    cases hx : extract_identifiers bag with
    | nil =>
      rw [hx] at hfind
      simp [find_existing_user] at hfind
    | cons p rest =>
      rcases p with ⟨f, v⟩
      have hfind2 :
          find_existing_user (log_interaction db1 uid (ctxOf bag) w.now)
            (extract_identifiers bag) = some uid := by
        refine find_after_update w.db uid bag w.now _ husers1 hcnf hmem f v rest hx
      have hnew2 :
          is_new_user (log_interaction db1 uid (ctxOf bag) w.now) bag = false := by
        rw [is_new_user, hfind2]
        rfl
      have hcnf2 :
          updConflict (log_interaction db1 uid (ctxOf bag) w.now) uid bag = false :=
        updConflict_after w.db uid bag w.now _ husers1 hcnf
      refine
        ⟨{ db := log_interaction
               ({ log_interaction db1 uid (ctxOf bag) w.now with
                  users := (log_interaction db1 uid (ctxOf bag) w.now).users.map
                    fun u => if u.id = uid then applyUpd bag w.now u else u })
               uid (ctxOf bag) w.now,
           csv := w.csv, dbFails := w.dbFails, csvFails := w.csvFails,
           now := w.now },
         ?_, ?_⟩
      · simp only [smart_capture, hvs, Bool.not_true, Bool.false_eq_true,
          if_false, hm2, tryBody, hdb, hnew2, hfind2, update_existing_user,
          hcnf2, if_true]
      · simp only [log_interaction, List.map_map]
        rw [hdb1]
        simp only [List.map_map]
        have hfun :
            (proj ∘ fun u : UserRow =>
                if u.id = uid then applyUpd bag w.now u else u) ∘
              (fun u : UserRow =>
                if u.id = uid then applyUpd bag w.now u else u) =
            proj ∘ fun u : UserRow =>
              if u.id = uid then applyUpd bag w.now u else u := by
          funext u
          by_cases hu : u.id = uid
          · simp only [Function.comp_apply, if_pos hu, applyUpd_id,
              proj_applyUpd_applyUpd]
          · simp only [Function.comp_apply, if_neg hu]
        rw [hfun]
  next =>
    split at h
    · simp at h
    · simp at h

/-- Witness for C8: the identity holding registration number CSE12345 is
captured again with the identical bag; isNew stays false and the identity
fields are unchanged after the second call. -/
theorem capture_merge_idempotent_witness :
    smart_capture bagReg wReg1 = Except.ok (wReg2, Msg.recordedExisting) ∧
      ∃ w2, smart_capture bagReg wReg2 = Except.ok (w2, Msg.recordedExisting) ∧
        w2.db.users.map proj = wReg2.db.users.map proj :=
  ⟨rfl, capture_merge_idempotent wReg1 wReg2 bagReg rfl⟩
